import Mathlib

set_option maxHeartbeats 1000000

/-!
Verification development for the web-scraper orchestrator
(src/base_scraper.py).  The Python source is shallowly embedded below:
dicts become structures (an absent key is an Option set to none), the
Python set of seen URLs becomes a list used only through membership,
machine floats in the success-rate statistic become exact rationals, and
code that raises becomes Except-valued.  Collector plugins are opaque
values of a Collector structure holding the two scraping callbacks.
-/

namespace WebScraper

/-- Raw listing record handed to the orchestrator by a Collector, i.e. one
element of the list returned by scrape_announcements.  A Python dict; an
absent key is modelled as none, matching the dict.get defaults used by
ScraperResult._standardize_announcement. -/
structure RawAnnouncement where
  id : Option String := none
  title : Option String := none
  url : Option String := none
  date : Option String := none
  category : Option String := none
  excerpt : Option String := none
deriving Repr, DecidableEq

/-- Standardized listing record, the shape produced by
ScraperResult._standardize_announcement (base_scraper.py lines 78-90). -/
structure Announcement where
  id : String
  title : String
  url : String
  date : String
  category : String
  excerpt : String
  source_website : String
  scraped_at : String
  raw_data : RawAnnouncement
deriving Repr, DecidableEq

/-- Raw full-content record returned by scrape_full_content. -/
structure RawContent where
  id : Option String := none
  url : Option String := none
  title : Option String := none
  date_published : Option String := none
  full_content : Option String := none
  word_count : Option Nat := none
  images : Option (List String) := none
  links : Option (List String) := none
  contact_info : Option String := none
  tags : Option (List String) := none
  comments : Option (List String) := none
  metadata : Option (List (String × String)) := none
deriving Repr, DecidableEq

/-- Standardized full-content record, the shape produced by
ScraperResult._standardize_content (base_scraper.py lines 92-110). -/
structure ContentRecord where
  id : String
  url : String
  title : String
  date_published : String
  full_content : String
  word_count : Nat
  images : List String
  links : List String
  contact_info : String
  tags : List String
  comments : List String
  metadata : List (String × String)
  source_website : String
  scraped_at : String
  raw_data : RawContent
deriving Repr, DecidableEq

/-- The source calls uuid.uuid4() for a record that carries no id of its
own.  No claim depends on identifier values, so the generator is modelled
as a fixed token. -/
def generatedUuid : String := "generated-uuid-4"

/-- ScraperResult._standardize_announcement (lines 78-90).  The website
and scraped_at fields come from the owning ScraperResult. -/
def standardizeAnnouncement (website scraped_at : String) (a : RawAnnouncement) : Announcement :=
  { id := a.id.getD generatedUuid
    title := a.title.getD ""
    url := a.url.getD ""
    date := a.date.getD ""
    category := a.category.getD "General"
    excerpt := a.excerpt.getD ""
    source_website := website
    scraped_at := scraped_at
    raw_data := a }

/-- ScraperResult._standardize_content (lines 92-110). -/
def standardizeContent (website scraped_at : String) (c : RawContent) : ContentRecord :=
  { id := c.id.getD generatedUuid
    url := c.url.getD ""
    title := c.title.getD ""
    date_published := c.date_published.getD ""
    full_content := c.full_content.getD ""
    word_count := c.word_count.getD 0
    images := c.images.getD []
    links := c.links.getD []
    contact_info := c.contact_info.getD ""
    tags := c.tags.getD []
    comments := c.comments.getD []
    metadata := c.metadata.getD []
    source_website := website
    scraped_at := scraped_at
    raw_data := c }

/-- The statistics dict a run stores via result.statistics.update at
lines 310-313; empty before that call. -/
structure RunStatistics where
  date_range : Option String := none
  success_rate : Option Rat := none
deriving Repr, DecidableEq

/-- ScraperResult (lines 40-55).  existing_urls and new_urls are Python
sets, modelled as lists consulted only through membership. -/
structure ScraperResult where
  scraper_name : String
  website : String
  scraped_at : String
  session_id : String
  announcements : List Announcement := []
  full_content : List ContentRecord := []
  metadata : List (String × String) := []
  errors : List String := []
  statistics : RunStatistics := {}
  existing_urls : List String := []
  new_urls : List String := []
  skipped_duplicates : Nat := 0
deriving Repr, DecidableEq

/-- ScraperResult.__init__ (lines 43-55). -/
def mkScraperResult (scraper_name website : String) (existing_urls : List String)
    (scraped_at session_id : String) : ScraperResult :=
  { scraper_name := scraper_name
    website := website
    scraped_at := scraped_at
    session_id := session_id
    existing_urls := existing_urls }

/-- Python set.add: appends only when the element is new. -/
def setInsert (l : List String) (u : String) : List String :=
  if u ∈ l then l else l ++ [u]

/-- The duplicate test of add_announcement, line 61: the url string is
truthy (non-empty) and already in the existing_urls set. -/
def isDupRaw (ex : List String) (a : RawAnnouncement) : Bool :=
  decide (a.url.getD "" ≠ "" ∧ a.url.getD "" ∈ ex)

/-- ScraperResult.add_announcement (lines 57-71): skip and count a
duplicate, otherwise append the standardized record and remember a
non-empty url in new_urls.  Returns the same Bool as the source. -/
def addAnnouncement (r : ScraperResult) (a : RawAnnouncement) : Bool × ScraperResult :=
  if isDupRaw r.existing_urls a then
    (false, { r with skipped_duplicates := r.skipped_duplicates + 1 })
  else
    let r1 := { r with
      announcements := r.announcements ++ [standardizeAnnouncement r.website r.scraped_at a] }
    let url := a.url.getD ""
    if url ≠ "" then
      (true, { r1 with new_urls := setInsert r1.new_urls url })
    else
      (true, r1)

/-- ScraperResult.add_full_content (lines 73-76). -/
def addFullContent (r : ScraperResult) (c : RawContent) : ScraperResult :=
  { r with full_content := r.full_content ++ [standardizeContent r.website r.scraped_at c] }

/-- The scraper_info block of ScraperResult.to_dict (lines 115-120). -/
structure ScraperInfo where
  scraper_name : String
  website : String
  scraped_at : String
  session_id : String
deriving Repr, DecidableEq

/-- Per-collector statistics dict inside the master store.  to_dict
(lines 121-128) fills the first five keys plus whatever the run put into
result.statistics; the merge step of update_master_file (lines 375-382)
rebuilds the dict with the three totals plus the three last_scrape keys.
Keys that a given writer omits are none. -/
structure EntryStatistics where
  total_announcements : Nat
  total_full_content : Nat
  total_errors : Nat
  skipped_duplicates : Option Nat := none
  new_urls_found : Option Nat := none
  date_range : Option String := none
  success_rate : Option Rat := none
  last_scrape_new_items : Option Nat := none
  last_scrape_skipped : Option Nat := none
  last_scrape_date : Option String := none
deriving Repr, DecidableEq

/-- One entry of results_by_scraper: the durable per-collector slice of
the master store, shaped like ScraperResult.to_dict (lines 112-133). -/
structure CorpusEntry where
  scraper_info : ScraperInfo
  statistics : EntryStatistics
  announcements : List Announcement
  full_content : List ContentRecord
  metadata : List (String × String)
  errors : List String
deriving Repr, DecidableEq

/-- ScraperResult.to_dict (lines 112-133). -/
def ScraperResult.toDict (r : ScraperResult) : CorpusEntry :=
  { scraper_info :=
      { scraper_name := r.scraper_name
        website := r.website
        scraped_at := r.scraped_at
        session_id := r.session_id }
    statistics :=
      { total_announcements := r.announcements.length
        total_full_content := r.full_content.length
        total_errors := r.errors.length
        skipped_duplicates := some r.skipped_duplicates
        new_urls_found := some r.new_urls.length
        date_range := r.statistics.date_range
        success_rate := r.statistics.success_rate }
    announcements := r.announcements
    full_content := r.full_content
    metadata := r.metadata
    errors := r.errors }

/-- scraping_history of the master store (lines 151-155). -/
structure ScrapingHistory where
  first_scrape : String
  last_updated : String
  total_scrapes : Nat
deriving Repr, DecidableEq

/-- summary of the master store.  The empty store (lines 156-160) has
only the three totals; update_master_file (lines 398-404) also writes
scrapers_count and last_updated. -/
structure Summary where
  total_announcements : Nat
  total_full_content : Nat
  total_errors : Nat
  scrapers_count : Option Nat := none
  last_updated : Option String := none
deriving Repr, DecidableEq

/-- The master store document (lines 147-162 give its shape).
results_by_scraper is a Python dict, modelled as an association list in
insertion order. -/
structure Store where
  scraping_history : ScrapingHistory
  summary : Summary
  results_by_scraper : List (String × CorpusEntry)
deriving Repr, DecidableEq

/-- Association-list lookup, the read of a Python dict. -/
def alistLookup {α : Type} : List (String × α) → String → Option α
  | [], _ => none
  | (k, v) :: rest, n => if k = n then some v else alistLookup rest n

/-- Association-list write, the assignment d[k] = v on a Python dict:
replace the binding when the key exists, else append. -/
def alistSet {α : Type} : List (String × α) → String → α → List (String × α)
  | [], n, v => [(n, v)]
  | (k, v0) :: rest, n, v => if k = n then (n, v) :: rest else (k, v0) :: alistSet rest n v

/-- The canonical empty-store shape returned by load_existing_data when
the backing file is absent (lines 149-162). -/
def emptyStore (now : String) : Store :=
  { scraping_history := { first_scrape := now, last_updated := now, total_scrapes := 0 }
    summary := { total_announcements := 0, total_full_content := 0, total_errors := 0 }
    results_by_scraper := [] }

/-- The non-empty urls contributed by one corpus entry, as collected by
the two loops of get_existing_urls (lines 181-191). -/
def entryUrls (e : CorpusEntry) : List String :=
  (e.announcements.map Announcement.url ++ e.full_content.map ContentRecord.url).filter
    (fun u => decide (u ≠ ""))

/-- ScraperOrchestrator.get_existing_urls (lines 171-193).  The scraper
name is optional; a falsy name (Python: None or the empty string) means
every collector is consulted.  The source accumulates into a set; only
membership in the result is ever observed, so a list is returned. -/
def getExistingUrls (s : Store) (scraper_name : Option String) : List String :=
  let names : List String :=
    match scraper_name with
    | some n => if n = "" then s.results_by_scraper.map Prod.fst else [n]
    | none => s.results_by_scraper.map Prod.fst
  (names.map (fun n =>
    match alistLookup s.results_by_scraper n with
    | none => []
    | some e => entryUrls e)).flatten

/-- Observable behaviour of one scrape_full_content call.  From the
orchestrator the call either returns a list of records or raises; the
processed field of raisesAfter records which per-url results the
Collector had produced internally before raising, which the caller never
receives (the Python return value is lost when the call raises). -/
inductive FullOutcome where
  | ok (records : List RawContent)
  | raisesAfter (processed : List RawContent) (msg : String)
deriving Repr, DecidableEq

/-- What the orchestrator sees of a FullOutcome. -/
def FullOutcome.call : FullOutcome → Except String (List RawContent)
  | .ok records => .ok records
  | .raisesAfter _ msg => .error msg

/-- The records the Collector had produced before the call finished or
raised. -/
def FullOutcome.processedRecords : FullOutcome → List RawContent
  | .ok records => records
  | .raisesAfter processed _ => processed

/-- Whether the call returns normally. -/
def FullOutcome.isOk : FullOutcome → Bool
  | .ok _ => true
  | .raisesAfter _ _ => false

/-- A loaded Collector plugin: the get_scraper_info metadata actually
read by run_scraper plus the two scraping callbacks of the
BaseScraperInterface contract. -/
structure Collector where
  info_name : String
  info_website : String
  scrape_announcements : String → String → Except String (List RawAnnouncement)
  scrape_full_content : List String → FullOutcome

/-- The message built at line 316 of run_scraper when a Collector call
raises; scraper_key is the registry key run_scraper was called with. -/
def errorMessage (scraper_key e : String) : String :=
  "Error running scraper " ++ scraper_key ++ ": " ++ e

/-- The announcement loop of run_scraper (lines 287-290): feed each raw
record to add_announcement and keep the raw records that were accepted,
in order, as new_announcements. -/
def processAnnouncements : ScraperResult → List RawAnnouncement → ScraperResult × List RawAnnouncement
  | r, [] => (r, [])
  | r, a :: rest =>
    let step := addAnnouncement r a
    let tail := processAnnouncements step.2 rest
    (tail.1, if step.1 then a :: tail.2 else tail.2)

/-- Line 299: the urls handed to scrape_full_content are the truthy urls
of the accepted raw records, in order, with multiplicity. -/
def newUrlList (newAnns : List RawAnnouncement) : List String :=
  (newAnns.map (fun a => a.url.getD "")).filter (fun u => decide (u ≠ ""))

/-- Line 312 of run_scraper: the success_rate statistic, guarded against
an empty announcement list.  Python float division is modelled exactly
over the rationals. -/
def computeSuccessRate (r : ScraperResult) : Rat :=
  if r.announcements.isEmpty then 0
  else (r.full_content.length : Rat) / (r.announcements.length : Rat)

/-- Lines 310-313: result.statistics.update with the date range and the
success rate. -/
def setRunStatistics (r : ScraperResult) (start_date end_date : String) : ScraperResult :=
  { r with statistics :=
      { date_range := some (start_date ++ " to " ++ end_date)
        success_rate := some (computeSuccessRate r) } }

/-- A run together with the log of scrape_full_content invocations the
orchestrator issued during it (each entry is the url list of one call). -/
structure RunOutput where
  result : ScraperResult
  fullCalls : List (List String)

/-- ScraperOrchestrator.run_scraper after the registry check (lines
266-322), for one Collector and a precomputed deduplication snapshot.
The try block covers the listing call, the admission loop, the
full-content call and the statistics update; a raise from either
Collector call lands in the except clause, which appends one textual
error and returns the partially filled result. -/
def runScraper (scraper_key : String) (c : Collector) (existing_urls : List String)
    (start_date end_date : String) (scrape_full_content : Bool)
    (scraped_at session_id : String) : RunOutput :=
  let r0 := mkScraperResult c.info_name c.info_website existing_urls scraped_at session_id
  match c.scrape_announcements start_date end_date with
  | .error e =>
      { result := { r0 with errors := r0.errors ++ [errorMessage scraper_key e] }
        fullCalls := [] }
  | .ok anns =>
      let pr := processAnnouncements r0 anns
      if scrape_full_content ∧ pr.2 ≠ [] then
        let newUrls := newUrlList pr.2
        if newUrls ≠ [] then
          match (c.scrape_full_content newUrls).call with
          | .error e =>
              { result := { pr.1 with errors := pr.1.errors ++ [errorMessage scraper_key e] }
                fullCalls := [newUrls] }
          | .ok contents =>
              { result := setRunStatistics (contents.foldl addFullContent pr.1) start_date end_date
                fullCalls := [newUrls] }
        else
          { result := setRunStatistics pr.1 start_date end_date, fullCalls := [] }
      else
        { result := setRunStatistics pr.1 start_date end_date, fullCalls := [] }

/-- The per-collector branch of update_master_file for a collector
already present in the store (lines 354-382): append announcements,
full_content and errors, replace scraper_info, rebuild the statistics
dict from the lengths of the now-current arrays. -/
def mergeEntry (existing : CorpusEntry) (r : ScraperResult) : CorpusEntry :=
  let nd := r.toDict
  { scraper_info := nd.scraper_info
    announcements := existing.announcements ++ nd.announcements
    full_content := existing.full_content ++ nd.full_content
    metadata := existing.metadata
    errors := existing.errors ++ nd.errors
    statistics :=
      { total_announcements := (existing.announcements ++ nd.announcements).length
        total_full_content := (existing.full_content ++ nd.full_content).length
        total_errors := (existing.errors ++ nd.errors).length
        last_scrape_new_items := some nd.statistics.total_announcements
        last_scrape_skipped := some (nd.statistics.skipped_duplicates.getD 0)
        last_scrape_date := some nd.scraper_info.scraped_at } }

/-- ScraperOrchestrator.update_master_file (lines 339-405) minus the
final file write: bump the history, fold every new result into
results_by_scraper, then recompute the summary from the merged entries. -/
def updateMasterFile (store : Store) (new_results : List (String × ScraperResult))
    (now : String) : Store :=
  let hist :=
    { store.scraping_history with
        last_updated := now
        total_scrapes := store.scraping_history.total_scrapes + 1 }
  let rbs := new_results.foldl (fun rbs p =>
    match alistLookup rbs p.1 with
    | none => rbs ++ [(p.1, p.2.toDict)]
    | some e => alistSet rbs p.1 (mergeEntry e p.2)) store.results_by_scraper
  { scraping_history := hist
    summary :=
      { total_announcements := (rbs.map (fun p => p.2.announcements.length)).sum
        total_full_content := (rbs.map (fun p => p.2.full_content.length)).sum
        total_errors := (rbs.map (fun p => p.2.errors.length)).sum
        scrapers_count := some rbs.length
        last_updated := some now }
    results_by_scraper := rbs }

/-- One end-to-end cycle of the command flow in main (lines 495-507):
take the deduplication snapshot from the current store, run one
Collector, merge the run into the store. -/
def runAndMerge (store : Store) (scraper_key : String) (c : Collector)
    (start_date end_date : String) (scrape_full_content : Bool)
    (scraped_at session_id now : String) : Store :=
  let out := runScraper scraper_key c (getExistingUrls store (some scraper_key))
    start_date end_date scrape_full_content scraped_at session_id
  updateMasterFile store [(scraper_key, out.result)] now

/-- One scheduled run for the reachability argument over stores. -/
structure RunStep where
  scraper_key : String
  collector : Collector
  start_date : String
  end_date : String
  scrape_full_content : Bool
  scraped_at : String
  session_id : String
  now : String

/-- A sequence of runs, each merged into the store before the next. -/
def execSteps (store : Store) : List RunStep → Store
  | [] => store
  | st :: rest =>
      execSteps (runAndMerge store st.scraper_key st.collector st.start_date st.end_date
        st.scrape_full_content st.scraped_at st.session_id st.now) rest

/-- The orchestrator registry state read and written by run_scraper:
loaded_scrapers and the results cache (lines 144-145). -/
structure Orchestrator where
  loaded_scrapers : List (String × Collector)
  results : List (String × ScraperResult)

/-- The error raised at line 264: a ValueError whose message interpolates
the requested name and the list of available registry keys. -/
inductive RunError where
  | scraperNotFound (scraper_name : String) (available : List String)
deriving Repr, DecidableEq

/-- run_scraper including the registry check at lines 262-264 and the
results-cache write at line 321.  The raised ValueError is modelled as
the error value; the orchestrator state is returned alongside. -/
def runScraperChecked (o : Orchestrator) (store : Store) (scraper_name : String)
    (start_date end_date : String) (scrape_full_content : Bool)
    (scraped_at session_id : String) : Except RunError RunOutput × Orchestrator :=
  match alistLookup o.loaded_scrapers scraper_name with
  | none =>
      (.error (.scraperNotFound scraper_name (o.loaded_scrapers.map Prod.fst)), o)
  | some c =>
      let out := runScraper scraper_name c (getExistingUrls store (some scraper_name))
        start_date end_date scrape_full_content scraped_at session_id
      (.ok out, { o with results := alistSet o.results scraper_name out.result })

/-- State of the master file as load_existing_data finds it: absent,
present but not valid JSON, or readable with the given contents. -/
inductive MasterFileState where
  | absent
  | corruptJson
  | readable (s : Store)

/-- How a load attempt can fail.  On a corrupt file the source recurses
until the interpreter recursion limit aborts it. -/
inductive LoadFailure where
  | recursionError
deriving Repr, DecidableEq

/-- The warning printed at line 168 before each retry. -/
def loadWarning : String := "Warning: Could not load existing data"

/-- ScraperOrchestrator.load_existing_data (lines 147-169).  An absent
file yields the canonical empty store; a readable file yields its
contents; a corrupt file raises inside the try block, and the except
clause prints a warning and calls load_existing_data again on the still
corrupt file, so the call recurses until the interpreter recursion
limit is hit and RecursionError propagates out of every frame (the
recursive call sits in the except clause, outside any try).  The fuel
argument is the remaining recursion budget; the second component is the
list of warnings printed. -/
def loadExistingData (now : String) : Nat → MasterFileState → Except LoadFailure Store × List String
  | _, .absent => (.ok (emptyStore now), [])
  | _, .readable s => (.ok s, [])
  | 0, .corruptJson => (.error .recursionError, [])
  | n + 1, .corruptJson =>
      let t := loadExistingData now n .corruptJson
      (t.1, loadWarning :: t.2)

/-- File-system operations, for the persistence step of
update_master_file. -/
inductive FsOp where
  | openTruncate (path : String)
  | writeStore (path : String) (data : Store)
  | rename (src dst : String)
deriving DecidableEq, Repr

/-- Whether an operation is a rename. -/
def FsOp.isRename : FsOp → Bool
  | .rename _ _ => true
  | _ => false

/-- The save step of update_master_file, lines 406-408: open the master
path itself with mode w, which truncates it, then dump the serialized
store into it.  No temporary path and no rename appear. -/
def updateMasterFileOps (master_file_path : String) (updated : Store) : List FsOp :=
  [FsOp.openTruncate master_file_path, FsOp.writeStore master_file_path updated]

/-- The write-to-temporary-then-rename shape the atomicity requirement
asks for: some temporary path distinct from the master path is renamed
onto it. -/
def atomicReplacePattern (master_file_path : String) (ops : List FsOp) : Prop :=
  ∃ tmp, tmp ≠ master_file_path ∧ FsOp.rename tmp master_file_path ∈ ops

/-- Effect of one operation on a file system mapping paths to readable
store contents (none: absent, truncated or unparseable). -/
def applyFsOp (fs : String → Option Store) : FsOp → String → Option Store
  | .openTruncate p => fun q => if q = p then none else fs q
  | .writeStore p s => fun q => if q = p then some s else fs q
  | .rename src dst => fun q => if q = dst then fs src else if q = src then none else fs q

/-- Replay a list of operations over a file system. -/
def runFsOps (fs : String → Option Store) : List FsOp → String → Option Store
  | [] => fs
  | op :: rest => runFsOps (applyFsOp fs op) rest

/-- Relation between two stored listing records allowed by the corpus
invariant of the data model: they may only coincide on an empty url. -/
def urlOk (a b : Announcement) : Prop :=
  a.url = "" ∨ b.url = "" ∨ a.url ≠ b.url

instance : DecidableRel urlOk := fun a b =>
  decidable_of_iff (a.url = "" ∨ b.url = "" ∨ a.url ≠ b.url) Iff.rfl

/-- Per-collector corpus invariant: no two stored listing records share a
non-empty url. -/
def entryInv (e : CorpusEntry) : Prop :=
  e.announcements.Pairwise urlOk

instance : DecidablePred entryInv := fun e =>
  decidable_of_iff (e.announcements.Pairwise urlOk) Iff.rfl

/-- Store-wide corpus invariant. -/
def storeInv (s : Store) : Prop :=
  ∀ p ∈ s.results_by_scraper, entryInv p.2

instance : DecidablePred storeInv := fun s =>
  decidable_of_iff (∀ p ∈ s.results_by_scraper, entryInv p.2) Iff.rfl

/-- A Collector whose listing phase never yields the same non-empty url
twice within one call for the given date range. -/
def listingNodupOk (c : Collector) (start_date end_date : String) : Prop :=
  ∀ anns, c.scrape_announcements start_date end_date = .ok anns →
    anns.Pairwise (fun a b =>
      a.url.getD "" = "" ∨ b.url.getD "" = "" ∨ a.url.getD "" ≠ b.url.getD "")

/-- Concrete fixtures used by the closed witness and counterexample
theorems below. -/
def rawA1 : RawAnnouncement :=
  { title := some "Recall A1", url := some "https://example.com/a1" }

def rawA2 : RawAnnouncement :=
  { title := some "Recall A2", url := some "https://example.com/a2" }

def rawNoUrl : RawAnnouncement :=
  { title := some "untitled bulletin" }

def contentA1 : RawContent :=
  { url := some "https://example.com/a1", full_content := some "partial body text" }

/-- Collector with two distinct listed urls and a working content phase. -/
def cTwo : Collector :=
  { info_name := "fda_scraper"
    info_website := "https://www.fda.gov"
    scrape_announcements := fun _ _ => .ok [rawA1, rawA2]
    scrape_full_content := fun urls => .ok (urls.map (fun u => { url := some u })) }

/-- Collector whose single listing call yields the same non-empty url
twice. -/
def cDupListing : Collector :=
  { info_name := "fda_scraper"
    info_website := "https://www.fda.gov"
    scrape_announcements := fun _ _ => .ok [rawA1, rawA1]
    scrape_full_content := fun urls => .ok (urls.map (fun u => { url := some u })) }

/-- Collector listing one url-bearing record and one record without a
url. -/
def cMix : Collector :=
  { info_name := "fda_scraper"
    info_website := "https://www.fda.gov"
    scrape_announcements := fun _ _ => .ok [rawA1, rawNoUrl]
    scrape_full_content := fun urls => .ok (urls.map (fun u => { url := some u })) }

/-- Collector whose content phase raises after internally producing one
record. -/
def cRaises : Collector :=
  { info_name := "fda_scraper"
    info_website := "https://www.fda.gov"
    scrape_announcements := fun _ _ => .ok [rawA1]
    scrape_full_content := fun _ => .raisesAfter [contentA1] "connection reset by peer" }

/-- Collector whose listing phase yields nothing. -/
def cEmptyListing : Collector :=
  { info_name := "fda_scraper"
    info_website := "https://www.fda.gov"
    scrape_announcements := fun _ _ => .ok []
    scrape_full_content := fun _ => .ok [] }

theorem alistLookup_mem {α : Type} {l : List (String × α)} {k : String} {v : α}
    (h : alistLookup l k = some v) : (k, v) ∈ l := by
  induction l with
  | nil => simp [alistLookup] at h
  | cons p rest ih =>
    obtain ⟨k0, v0⟩ := p
    by_cases hk : k0 = k
    · subst hk
      simp [alistLookup] at h
      simp [h]
    · simp only [alistLookup, hk, if_false] at h
      exact List.mem_cons_of_mem _ (ih h)

theorem alistLookup_mem_keys {α : Type} {l : List (String × α)} {k : String} {v : α}
    (h : alistLookup l k = some v) : k ∈ l.map Prod.fst :=
  List.mem_map.mpr ⟨(k, v), alistLookup_mem h, rfl⟩

theorem alistLookup_append_some {α : Type} {l1 l2 : List (String × α)} {k : String} {v : α}
    (h : alistLookup l1 k = some v) : alistLookup (l1 ++ l2) k = some v := by
  induction l1 with
  | nil => simp [alistLookup] at h
  | cons p rest ih =>
    obtain ⟨k0, v0⟩ := p
    by_cases hk : k0 = k
    · subst hk
      simp [alistLookup] at h ⊢
      exact h
    · simp only [alistLookup, hk, if_false, List.cons_append] at h ⊢
      exact ih h

theorem alistLookup_append_none {α : Type} {l1 l2 : List (String × α)} {k : String}
    (h : alistLookup l1 k = none) : alistLookup (l1 ++ l2) k = alistLookup l2 k := by
  induction l1 with
  | nil => simp
  | cons p rest ih =>
    obtain ⟨k0, v0⟩ := p
    by_cases hk : k0 = k
    · subst hk
      simp [alistLookup] at h
    · simp only [alistLookup, hk, if_false, List.cons_append] at h ⊢
      exact ih h

theorem alistLookup_alistSet_self {α : Type} (l : List (String × α)) (k : String) (v : α) :
    alistLookup (alistSet l k v) k = some v := by
  induction l with
  | nil => simp [alistSet, alistLookup]
  | cons p rest ih =>
    obtain ⟨k0, v0⟩ := p
    by_cases hk : k0 = k
    · subst hk
      simp [alistSet, alistLookup]
    · simp [alistSet, alistLookup, hk, ih]

theorem alistLookup_alistSet_ne {α : Type} (l : List (String × α)) (k k' : String) (v : α)
    (h : k' ≠ k) : alistLookup (alistSet l k v) k' = alistLookup l k' := by
  induction l with
  | nil => simp [alistSet, alistLookup, Ne.symm h]
  | cons p rest ih =>
    obtain ⟨k0, v0⟩ := p
    by_cases hk : k0 = k
    · subst hk
      simp [alistSet, alistLookup, Ne.symm h]
    · simp [alistSet, alistLookup, hk, ih]

theorem mem_alistSet {α : Type} {l : List (String × α)} {k : String} {v : α} {p : String × α}
    (h : p ∈ alistSet l k v) : p = (k, v) ∨ p ∈ l := by
  induction l with
  | nil => simpa [alistSet] using h
  | cons q rest ih =>
    obtain ⟨k0, v0⟩ := q
    by_cases hk : k0 = k
    · subst hk
      simp [alistSet] at h
      rcases h with h | h
      · exact Or.inl h
      · exact Or.inr (List.mem_cons_of_mem _ h)
    · simp only [alistSet, hk, if_false, List.mem_cons] at h
      rcases h with h | h
      · exact Or.inr (by simp [h])
      · rcases ih h with h' | h'
        · exact Or.inl h'
        · exact Or.inr (List.mem_cons_of_mem _ h')

theorem addAnnouncement_spec (r : ScraperResult) (a : RawAnnouncement) :
    (addAnnouncement r a).1 = !isDupRaw r.existing_urls a
    ∧ (addAnnouncement r a).2.existing_urls = r.existing_urls
    ∧ (addAnnouncement r a).2.website = r.website
    ∧ (addAnnouncement r a).2.scraped_at = r.scraped_at
    ∧ (addAnnouncement r a).2.scraper_name = r.scraper_name
    ∧ (addAnnouncement r a).2.session_id = r.session_id
    ∧ (addAnnouncement r a).2.full_content = r.full_content
    ∧ (addAnnouncement r a).2.errors = r.errors
    ∧ (addAnnouncement r a).2.statistics = r.statistics
    ∧ (addAnnouncement r a).2.metadata = r.metadata
    ∧ (addAnnouncement r a).2.announcements =
        (if isDupRaw r.existing_urls a then r.announcements
         else r.announcements ++ [standardizeAnnouncement r.website r.scraped_at a])
    ∧ (addAnnouncement r a).2.skipped_duplicates =
        (if isDupRaw r.existing_urls a then r.skipped_duplicates + 1
         else r.skipped_duplicates) := by
  cases h : isDupRaw r.existing_urls a
  · simp only [addAnnouncement, h, Bool.false_eq_true, if_false]
    split <;> simp
  · simp [addAnnouncement, h]

theorem processAnnouncements_const (l : List RawAnnouncement) : ∀ r : ScraperResult,
    (processAnnouncements r l).1.existing_urls = r.existing_urls
    ∧ (processAnnouncements r l).1.website = r.website
    ∧ (processAnnouncements r l).1.scraped_at = r.scraped_at
    ∧ (processAnnouncements r l).1.scraper_name = r.scraper_name
    ∧ (processAnnouncements r l).1.session_id = r.session_id
    ∧ (processAnnouncements r l).1.full_content = r.full_content
    ∧ (processAnnouncements r l).1.errors = r.errors
    ∧ (processAnnouncements r l).1.statistics = r.statistics
    ∧ (processAnnouncements r l).1.metadata = r.metadata := by
  induction l with
  | nil => intro r; simp [processAnnouncements]
  | cons a t ih =>
    intro r
    obtain ⟨h1, h2, h3, h4, h5, h6, h7, h8, h9, _, _⟩ := addAnnouncement_spec r a
    obtain ⟨g1, g2, g3, g4, g5, g6, g7, g8, g9⟩ := ih (addAnnouncement r a).2
    simp only [processAnnouncements]
    exact ⟨g1.trans h2, g2.trans h3, g3.trans h4, g4.trans h5, g5.trans h6,
      g6.trans h7, g7.trans h8, g8.trans h9, g9.trans (by assumption)⟩

theorem processAnnouncements_newAnns (l : List RawAnnouncement) : ∀ r : ScraperResult,
    (processAnnouncements r l).2 = l.filter (fun a => !isDupRaw r.existing_urls a) := by
  induction l with
  | nil => intro r; simp [processAnnouncements]
  | cons a t ih =>
    intro r
    obtain ⟨hfst, hex, _⟩ := addAnnouncement_spec r a
    have ht := ih (addAnnouncement r a).2
    rw [hex] at ht
    cases h : isDupRaw r.existing_urls a <;>
      simp [processAnnouncements, ht, hfst, h, List.filter_cons]

theorem processAnnouncements_announcements (l : List RawAnnouncement) : ∀ r : ScraperResult,
    (processAnnouncements r l).1.announcements =
      r.announcements ++ (l.filter (fun a => !isDupRaw r.existing_urls a)).map
        (standardizeAnnouncement r.website r.scraped_at) := by
  induction l with
  | nil => intro r; simp [processAnnouncements]
  | cons a t ih =>
    intro r
    obtain ⟨hfst, hex, hweb, hts, _, _, _, _, _, _, hann, _⟩ := addAnnouncement_spec r a
    have ht := ih (addAnnouncement r a).2
    rw [hex, hweb, hts, hann] at ht
    cases h : isDupRaw r.existing_urls a <;>
      simp [processAnnouncements, ht, h, List.filter_cons, List.append_assoc]

theorem processAnnouncements_skipped (l : List RawAnnouncement) : ∀ r : ScraperResult,
    (processAnnouncements r l).1.skipped_duplicates =
      r.skipped_duplicates + (l.filter (fun a => isDupRaw r.existing_urls a)).length := by
  induction l with
  | nil => intro r; simp [processAnnouncements]
  | cons a t ih =>
    intro r
    obtain ⟨hfst, hex, _, _, _, _, _, _, _, _, _, hsk⟩ := addAnnouncement_spec r a
    have ht := ih (addAnnouncement r a).2
    rw [hex, hsk] at ht
    cases h : isDupRaw r.existing_urls a <;>
      simp [processAnnouncements, ht, h, List.filter_cons]
    omega

theorem foldl_addFullContent_fields (cs : List RawContent) : ∀ r : ScraperResult,
    (cs.foldl addFullContent r).full_content =
      r.full_content ++ cs.map (standardizeContent r.website r.scraped_at)
    ∧ (cs.foldl addFullContent r).announcements = r.announcements
    ∧ (cs.foldl addFullContent r).errors = r.errors
    ∧ (cs.foldl addFullContent r).skipped_duplicates = r.skipped_duplicates
    ∧ (cs.foldl addFullContent r).website = r.website
    ∧ (cs.foldl addFullContent r).scraped_at = r.scraped_at
    ∧ (cs.foldl addFullContent r).statistics = r.statistics := by
  induction cs with
  | nil => intro r; simp
  | cons c t ih =>
    intro r
    obtain ⟨g1, g2, g3, g4, g5, g6, g7⟩ := ih (addFullContent r c)
    simp only [addFullContent] at g1 g2 g3 g4 g5 g6 g7
    simp [List.foldl_cons, addFullContent, g1, g2, g3, g4, g5, g6, g7, List.append_assoc]

theorem setRunStatistics_const (r : ScraperResult) (sd ed : String) :
    (setRunStatistics r sd ed).announcements = r.announcements
    ∧ (setRunStatistics r sd ed).full_content = r.full_content
    ∧ (setRunStatistics r sd ed).errors = r.errors
    ∧ (setRunStatistics r sd ed).skipped_duplicates = r.skipped_duplicates := by
  simp [setRunStatistics]

theorem runScraper_result_announcements (scraper_key : String) (c : Collector)
    (ex : List String) (sd ed : String) (flag : Bool) (ts sid : String) :
    (runScraper scraper_key c ex sd ed flag ts sid).result.announcements =
      (match c.scrape_announcements sd ed with
       | .error _ => []
       | .ok anns => (anns.filter (fun a => !isDupRaw ex a)).map
           (standardizeAnnouncement c.info_website ts)) := by
  cases h : c.scrape_announcements sd ed with
  | error e => simp [runScraper, h, mkScraperResult]
  | ok anns =>
    have hp := processAnnouncements_announcements anns
      (mkScraperResult c.info_name c.info_website ex ts sid)
    simp only [mkScraperResult] at hp
    simp only [runScraper, h]
    split
    · split
      · cases hc : (c.scrape_full_content
          (newUrlList (processAnnouncements
            (mkScraperResult c.info_name c.info_website ex ts sid) anns).2)).call <;>
          simp [hc, foldl_addFullContent_fields, setRunStatistics, hp, mkScraperResult,
            processAnnouncements_const]
      · simpa [setRunStatistics, mkScraperResult] using hp
    · simpa [setRunStatistics, mkScraperResult] using hp

theorem runScraper_result_skipped (scraper_key : String) (c : Collector)
    (ex : List String) (sd ed : String) (flag : Bool) (ts sid : String) :
    (runScraper scraper_key c ex sd ed flag ts sid).result.skipped_duplicates =
      (match c.scrape_announcements sd ed with
       | .error _ => 0
       | .ok anns => (anns.filter (fun a => isDupRaw ex a)).length) := by
  cases h : c.scrape_announcements sd ed with
  | error e => simp [runScraper, h, mkScraperResult]
  | ok anns =>
    have hp := processAnnouncements_skipped anns
      (mkScraperResult c.info_name c.info_website ex ts sid)
    simp only [mkScraperResult] at hp
    simp only [runScraper, h]
    split
    · split
      · cases hc : (c.scrape_full_content
          (newUrlList (processAnnouncements
            (mkScraperResult c.info_name c.info_website ex ts sid) anns).2)).call <;>
          simp [hc, foldl_addFullContent_fields, setRunStatistics, hp, mkScraperResult]
      · simpa [setRunStatistics, mkScraperResult] using hp
    · simpa [setRunStatistics, mkScraperResult] using hp

theorem mem_entryUrls {u : String} {e : CorpusEntry} :
    u ∈ entryUrls e ↔
      ((∃ a ∈ e.announcements, a.url = u) ∨ ∃ cr ∈ e.full_content, cr.url = u) ∧ u ≠ "" := by
  constructor
  · intro h
    simp only [entryUrls, List.mem_filter, List.mem_append, List.mem_map,
      decide_eq_true_eq] at h
    tauto
  · intro h
    simp only [entryUrls, List.mem_filter, List.mem_append, List.mem_map,
      decide_eq_true_eq]
    tauto

theorem mem_entryUrls_of_announcement {e : CorpusEntry} {a : Announcement}
    (ha : a ∈ e.announcements) (hu : a.url ≠ "") : a.url ∈ entryUrls e :=
  mem_entryUrls.mpr ⟨Or.inl ⟨a, ha, rfl⟩, hu⟩

theorem mem_getExistingUrls_some {s : Store} {n u : String} :
    u ∈ getExistingUrls s (some n) ↔
      ∃ k e, alistLookup s.results_by_scraper k = some e ∧ u ∈ entryUrls e
        ∧ (k = n ∨ n = "") := by
  by_cases hn : n = ""
  · subst hn
    simp only [getExistingUrls, if_pos rfl, List.mem_flatten, List.mem_map]
    constructor
    · rintro ⟨ln, ⟨k, hk, rfl⟩, hu⟩
      cases hl : alistLookup s.results_by_scraper k with
      | none => rw [hl] at hu; simp at hu
      | some e => rw [hl] at hu; exact ⟨k, e, hl, hu, Or.inr trivial⟩
    · rintro ⟨k, e, hl, hu, -⟩
      refine ⟨entryUrls e, ⟨k, alistLookup_mem_keys hl, ?_⟩, hu⟩
      rw [hl]
  · simp only [getExistingUrls, if_neg hn, List.map_cons, List.map_nil,
      List.flatten_cons, List.flatten_nil, List.append_nil]
    constructor
    · intro hu
      cases hl : alistLookup s.results_by_scraper n with
      | none => rw [hl] at hu; simp at hu
      | some e => rw [hl] at hu; exact ⟨n, e, hl, hu, Or.inl rfl⟩
    · rintro ⟨k, e, hl, hu, hk | hk⟩
      · subst hk; rw [hl]; exact hu
      · exact absurd hk hn

theorem updateMasterFile_single_rbs (S : Store) (k : String) (r : ScraperResult)
    (now : String) :
    (updateMasterFile S [(k, r)] now).results_by_scraper =
      match alistLookup S.results_by_scraper k with
      | none => S.results_by_scraper ++ [(k, r.toDict)]
      | some e => alistSet S.results_by_scraper k (mergeEntry e r) := rfl

theorem lookup_merged_self (S : Store) (k : String) (r : ScraperResult) (now : String) :
    alistLookup (updateMasterFile S [(k, r)] now).results_by_scraper k =
      some (match alistLookup S.results_by_scraper k with
            | none => r.toDict
            | some e => mergeEntry e r) := by
  rw [updateMasterFile_single_rbs]
  cases hl : alistLookup S.results_by_scraper k with
  | none => rw [alistLookup_append_none hl]; simp [alistLookup]
  | some e => exact alistLookup_alistSet_self _ _ _

theorem lookup_merged_other (S : Store) (k : String) (r : ScraperResult) (now k' : String)
    (h : k' ≠ k) :
    alistLookup (updateMasterFile S [(k, r)] now).results_by_scraper k' =
      alistLookup S.results_by_scraper k' := by
  rw [updateMasterFile_single_rbs]
  cases hl : alistLookup S.results_by_scraper k with
  | none =>
    cases hl' : alistLookup S.results_by_scraper k' with
    | none => rw [alistLookup_append_none hl']; simp [alistLookup, Ne.symm h]
    | some e' => rw [alistLookup_append_some hl']
  | some e => exact alistLookup_alistSet_ne _ _ _ _ h

theorem mergeEntry_announcements (e : CorpusEntry) (r : ScraperResult) :
    (mergeEntry e r).announcements = e.announcements ++ r.announcements := rfl

theorem mergeEntry_full_content (e : CorpusEntry) (r : ScraperResult) :
    (mergeEntry e r).full_content = e.full_content ++ r.full_content := rfl

theorem mergeEntry_errors (e : CorpusEntry) (r : ScraperResult) :
    (mergeEntry e r).errors = e.errors ++ r.errors := rfl

theorem toDict_announcements (r : ScraperResult) : r.toDict.announcements = r.announcements := rfl

theorem toDict_full_content (r : ScraperResult) : r.toDict.full_content = r.full_content := rfl

theorem entryUrls_mergeEntry_mono (e : CorpusEntry) (r : ScraperResult) {u : String}
    (h : u ∈ entryUrls e) : u ∈ entryUrls (mergeEntry e r) := by
  rw [mem_entryUrls] at h ⊢
  rw [mergeEntry_announcements, mergeEntry_full_content]
  obtain ⟨h1, h2⟩ := h
  refine ⟨?_, h2⟩
  rcases h1 with ⟨a, ha, hu⟩ | ⟨cr, hc, hu⟩
  · exact Or.inl ⟨a, List.mem_append.mpr (Or.inl ha), hu⟩
  · exact Or.inr ⟨cr, List.mem_append.mpr (Or.inl hc), hu⟩

theorem getExistingUrls_mono_merge (S : Store) (k : String) (r : ScraperResult)
    (now n : String) {u : String} (h : u ∈ getExistingUrls S (some n)) :
    u ∈ getExistingUrls (updateMasterFile S [(k, r)] now) (some n) := by
  rw [mem_getExistingUrls_some] at h ⊢
  obtain ⟨k0, e, hl, hu, hk⟩ := h
  by_cases hkk : k0 = k
  · subst hkk
    refine ⟨k0, mergeEntry e r, ?_, entryUrls_mergeEntry_mono e r hu, hk⟩
    rw [lookup_merged_self, hl]
  · exact ⟨k0, e, by rw [lookup_merged_other S k r now k0 hkk]; exact hl, hu, hk⟩

theorem run_announcement_url_mem_merge (S : Store) (k : String) (r : ScraperResult)
    (now : String) {a : Announcement} (ha : a ∈ r.announcements) (hu : a.url ≠ "") :
    a.url ∈ getExistingUrls (updateMasterFile S [(k, r)] now) (some k) := by
  rw [mem_getExistingUrls_some]
  cases hl : alistLookup S.results_by_scraper k with
  | none =>
    refine ⟨k, r.toDict, ?_, ?_, Or.inl rfl⟩
    · rw [lookup_merged_self, hl]
    · exact mem_entryUrls_of_announcement (by rw [toDict_announcements]; exact ha) hu
  | some e =>
    refine ⟨k, mergeEntry e r, ?_, ?_, Or.inl rfl⟩
    · rw [lookup_merged_self, hl]
    · exact mem_entryUrls_of_announcement
        (by rw [mergeEntry_announcements]; exact List.mem_append.mpr (Or.inr ha)) hu

theorem entry_url_mem_getExistingUrls {S : Store} {k : String} {e : CorpusEntry}
    (hl : alistLookup S.results_by_scraper k = some e) {u : String}
    (hu : u ∈ entryUrls e) : u ∈ getExistingUrls S (some k) :=
  mem_getExistingUrls_some.mpr ⟨k, e, hl, hu, Or.inl rfl⟩

/-- C1: on a store file that exists but holds corrupt JSON,
load_existing_data prints a warning per attempt and ends in an error (the
retry recursion in the except clause exhausts the interpreter recursion
budget, and RecursionError propagates); whatever the remaining budget, it
never returns the canonical empty-store shape, and it performs no write,
so prior history is never silently replaced. -/
theorem C1_corrupt_load_reports_and_halts (now : String) (fuel : Nat) :
    loadExistingData now fuel .corruptJson =
      (.error .recursionError, List.replicate fuel loadWarning)
    ∧ (loadExistingData now fuel .corruptJson).1 ≠ .ok (emptyStore now) := by
  have h : ∀ m, loadExistingData now m .corruptJson =
      (.error .recursionError, List.replicate m loadWarning) := by
    intro m
    induction m with
    | zero => rfl
    | succ n ih => simp [loadExistingData, ih, List.replicate_succ]
  exact ⟨h fuel, by rw [h fuel]; simp⟩

/-- C3: after any merge call on any store, including merges that
introduce brand-new collector entries, the recomputed summary totals
equal the sums of the corresponding array lengths over all
results_by_scraper entries.  The theorem quantifies over an arbitrary
input store, so it also holds after any sequence of merges. -/
theorem C3_summary_recomputed (store : Store) (new_results : List (String × ScraperResult))
    (now : String) :
    (updateMasterFile store new_results now).summary.total_announcements =
      ((updateMasterFile store new_results now).results_by_scraper.map
        (fun p => p.2.announcements.length)).sum
    ∧ (updateMasterFile store new_results now).summary.total_full_content =
      ((updateMasterFile store new_results now).results_by_scraper.map
        (fun p => p.2.full_content.length)).sum
    ∧ (updateMasterFile store new_results now).summary.total_errors =
      ((updateMasterFile store new_results now).results_by_scraper.map
        (fun p => p.2.errors.length)).sum :=
  ⟨rfl, rfl, rfl⟩

/-- C4: add_announcement rejects a record as a duplicate exactly when its
url is non-empty and already in the snapshot index (so an empty-url
record is always accepted); a rejection bumps skipped_duplicates by one
and leaves the announcements list unchanged, and an acceptance appends
the normalized record. -/
theorem C4_admit_listing (r : ScraperResult) (a : RawAnnouncement) :
    ((addAnnouncement r a).1 = false ↔
      (a.url.getD "" ≠ "" ∧ a.url.getD "" ∈ r.existing_urls))
    ∧ (addAnnouncement r a).2.announcements =
        (if (addAnnouncement r a).1 then
          r.announcements ++ [standardizeAnnouncement r.website r.scraped_at a]
         else r.announcements)
    ∧ (addAnnouncement r a).2.skipped_duplicates =
        (if (addAnnouncement r a).1 then r.skipped_duplicates
         else r.skipped_duplicates + 1) := by
  obtain ⟨h1, _, _, _, _, _, _, _, _, _, h11, h12⟩ := addAnnouncement_spec r a
  refine ⟨?_, ?_, ?_⟩
  · rw [h1]
    cases h : isDupRaw r.existing_urls a <;> simp only [isDupRaw] at h <;>
      simp_all
  · rw [h11, h1]
    cases isDupRaw r.existing_urls a <;> simp
  · rw [h12, h1]
    cases isDupRaw r.existing_urls a <;> simp

/-- C8 counterexample: the save step of update_master_file issues no
rename at all, so the write-to-temporary-then-rename pattern the claim
asserts is absent, here shown at a concrete path and store. -/
theorem C8_counterexample :
    ¬ atomicReplacePattern "scraped_data/master_scraped_data.json"
        (updateMasterFileOps "scraped_data/master_scraped_data.json" (emptyStore "t0")) := by
  rintro ⟨tmp, -, hmem⟩
  simp [updateMasterFileOps] at hmem

/-- C8 amended: the save step writes the updated store directly to the
master path, truncating it first; no operation is a rename, after the
truncating open alone the file is unreadable (a reader at that instant
observes a truncated store), and only after the final write does the path
hold the updated store. -/
theorem C8_direct_overwrite (master_file_path : String) (updated : Store)
    (fs : String → Option Store) :
    ((updateMasterFileOps master_file_path updated).all (fun op => !op.isRename)) = true
    ∧ runFsOps fs ((updateMasterFileOps master_file_path updated).take 1)
        master_file_path = none
    ∧ runFsOps fs (updateMasterFileOps master_file_path updated)
        master_file_path = some updated := by
  refine ⟨rfl, ?_, ?_⟩ <;> simp [updateMasterFileOps, runFsOps, applyFsOp]

/-- C9: run_scraper called with a name absent from loaded_scrapers raises
the ValueError built at line 264, carrying the requested name and the
enumeration of the names that are available, and the orchestrator state
is returned unchanged. -/
theorem C9_scraper_not_found (o : Orchestrator) (store : Store)
    (scraper_name start_date end_date : String) (flag : Bool) (scraped_at session_id : String)
    (h : alistLookup o.loaded_scrapers scraper_name = none) :
    runScraperChecked o store scraper_name start_date end_date flag scraped_at session_id =
      (.error (.scraperNotFound scraper_name (o.loaded_scrapers.map Prod.fst)), o) := by
  simp [runScraperChecked, h]

/-- C9 witness: requesting an unknown collector from a registry holding
only fda_scraper fails with the not-found error listing fda_scraper, and
the registry is unchanged. -/
theorem C9_witness :
    runScraperChecked { loaded_scrapers := [("fda_scraper", cTwo)], results := [] }
        (emptyStore "t0") "sec_scraper" "2024-09-01" "2024-09-30" true "t1" "s1" =
      (.error (.scraperNotFound "sec_scraper" ["fda_scraper"]),
       { loaded_scrapers := [("fda_scraper", cTwo)], results := [] }) :=
  C9_scraper_not_found _ _ _ _ _ _ _ _ rfl

/-- C10: for every run whose Collector calls return normally, the
success_rate statistic is computed totally: it is 0 when the run admitted
no announcements (the source guards the division with a truthiness test
on the list) and the ratio of accumulated content records to admitted
announcements otherwise. -/
theorem C10_success_rate_total (scraper_key : String) (c : Collector) (ex : List String)
    (sd ed : String) (flag : Bool) (ts sid : String) (anns : List RawAnnouncement)
    (hl : c.scrape_announcements sd ed = .ok anns)
    (hf : ∀ urls, (c.scrape_full_content urls).isOk = true) :
    (runScraper scraper_key c ex sd ed flag ts sid).result.statistics.success_rate =
      some (if (runScraper scraper_key c ex sd ed flag ts sid).result.announcements.isEmpty
            then 0
            else ((runScraper scraper_key c ex sd ed flag ts sid).result.full_content.length : Rat) /
              ((runScraper scraper_key c ex sd ed flag ts sid).result.announcements.length : Rat)) := by
  simp only [runScraper, hl]
  split
  · split
    · cases hout : c.scrape_full_content (newUrlList (processAnnouncements
          (mkScraperResult c.info_name c.info_website ex ts sid) anns).2) with
      | ok contents => simp [hout, FullOutcome.call, setRunStatistics, computeSuccessRate]
      | raisesAfter p msg =>
        have hok := hf (newUrlList (processAnnouncements
          (mkScraperResult c.info_name c.info_website ex ts sid) anns).2)
        rw [hout] at hok
        simp [FullOutcome.isOk] at hok
    · simp [setRunStatistics, computeSuccessRate]
  · simp [setRunStatistics, computeSuccessRate]

/-- C10 witness: a run that admits zero announcements yields
success_rate 0 instead of a division error. -/
theorem C10_witness :
    (runScraper "fda_scraper" cEmptyListing [] "2024-09-01" "2024-09-30"
      true "t1" "s1").result.statistics.success_rate = some 0 := by
  have h := C10_success_rate_total "fda_scraper" cEmptyListing [] "2024-09-01" "2024-09-30"
    true "t1" "s1" [] rfl (fun urls => rfl)
  rw [h]
  decide

theorem runScraper_fullCalls (scraper_key : String) (c : Collector) (ex : List String)
    (sd ed ts sid : String) :
    (runScraper scraper_key c ex sd ed true ts sid).fullCalls =
      match c.scrape_announcements sd ed with
      | .error _ => []
      | .ok anns =>
          if newUrlList (anns.filter (fun a => !isDupRaw ex a)) = [] then []
          else [newUrlList (anns.filter (fun a => !isDupRaw ex a))] := by
  cases h : c.scrape_announcements sd ed with
  | error e => simp [runScraper, h]
  | ok anns =>
    have hnew := processAnnouncements_newAnns anns
      (mkScraperResult c.info_name c.info_website ex ts sid)
    have hex : (mkScraperResult c.info_name c.info_website ex ts sid).existing_urls = ex := rfl
    rw [hex] at hnew
    simp only [runScraper, h, hnew]
    by_cases h2 : anns.filter (fun a => !isDupRaw ex a) = []
    · simp [h2, newUrlList]
    · by_cases h3 : newUrlList (anns.filter (fun a => !isDupRaw ex a)) = []
      · simp [h2, h3]
      · cases hc : (c.scrape_full_content
            (newUrlList (anns.filter (fun a => !isDupRaw ex a)))).call <;>
          simp [h2, h3, hc]

theorem admitted_urls_eq (scraper_key : String) (c : Collector) (ex : List String)
    (sd ed : String) (flag : Bool) (ts sid : String) :
    ((runScraper scraper_key c ex sd ed flag ts sid).result.announcements.map
        Announcement.url).filter (fun u => decide (u ≠ "")) =
      match c.scrape_announcements sd ed with
      | .error _ => []
      | .ok anns => newUrlList (anns.filter (fun a => !isDupRaw ex a)) := by
  rw [runScraper_result_announcements]
  cases c.scrape_announcements sd ed with
  | error e => rfl
  | ok anns =>
    simp only [newUrlList, List.map_map]
    congr 1

/-- C7: in a run with full-content fetching enabled, scrape_full_content
is invoked exactly once, with exactly the non-empty urls of the
announcements admitted in the listing phase of that run (none of which
is in the deduplication snapshot), and is not invoked at all when no
admitted announcement has a non-empty url. -/
theorem C7_full_content_call (scraper_key : String) (c : Collector) (ex : List String)
    (sd ed ts sid : String) :
    (runScraper scraper_key c ex sd ed true ts sid).fullCalls =
      (if ((runScraper scraper_key c ex sd ed true ts sid).result.announcements.map
            Announcement.url).filter (fun u => decide (u ≠ "")) = [] then []
       else [((runScraper scraper_key c ex sd ed true ts sid).result.announcements.map
            Announcement.url).filter (fun u => decide (u ≠ ""))])
    ∧ (((runScraper scraper_key c ex sd ed true ts sid).result.announcements.map
          Announcement.url).filter (fun u => decide (u ≠ ""))).all
        (fun u => !decide (u ∈ ex)) = true := by
  rw [admitted_urls_eq, runScraper_fullCalls]
  cases c.scrape_announcements sd ed with
  | error e => simp
  | ok anns =>
    refine ⟨rfl, ?_⟩
    rw [List.all_eq_true]
    intro u hu
    simp only [newUrlList, List.mem_filter, List.mem_map, decide_eq_true_eq] at hu
    obtain ⟨⟨a, ha, rfl⟩, hne⟩ := hu
    have hacc := ha.2
    simp only [Bool.not_eq_true'] at hacc
    simp only [isDupRaw, decide_eq_false_iff_not] at hacc
    simp only [Bool.not_eq_true', decide_eq_false_iff_not]
    intro hmem
    exact hacc ⟨hne, hmem⟩

/-- C6 counterexample: for a run whose scrape_full_content raises after
internally processing one record, that record does not appear in the
returned RunResult, refuting the claim that successfully-processed
content records accumulated before the failure are retained: the raising
call returns nothing to the orchestrator, so no content record at all
survives. -/
theorem C6_counterexample :
    standardizeContent cRaises.info_website "t1" contentA1 ∉
      (runScraper "fda_scraper" cRaises [] "2024-09-01" "2024-09-30"
        true "t1" "s1").result.full_content
    ∧ (cRaises.scrape_full_content ["https://example.com/a1"]).processedRecords =
        [contentA1] := by
  decide

/-- C6 amended: when scrape_full_content raises, the RunResult returned
by the orchestrator contains no content records at all (per-url progress
inside the raising call is discarded), its errors list is exactly the
one caught-exception message (hence non-empty), and it still contains
every announcement admitted in the listing phase; the exception does not
propagate, since runScraper returns a RunOutput on every input. -/
theorem C6_raise_discards_content (scraper_key : String) (c : Collector) (ex : List String)
    (sd ed ts sid : String) (anns : List RawAnnouncement) (p : List RawContent) (e : String)
    (hl : c.scrape_announcements sd ed = .ok anns)
    (hf : c.scrape_full_content (newUrlList (anns.filter (fun a => !isDupRaw ex a))) =
      .raisesAfter p e)
    (hne : newUrlList (anns.filter (fun a => !isDupRaw ex a)) ≠ []) :
    (runScraper scraper_key c ex sd ed true ts sid).result.full_content = []
    ∧ (runScraper scraper_key c ex sd ed true ts sid).result.errors =
        [errorMessage scraper_key e]
    ∧ (runScraper scraper_key c ex sd ed true ts sid).result.announcements =
        (anns.filter (fun a => !isDupRaw ex a)).map
          (standardizeAnnouncement c.info_website ts) := by
  have hnew := processAnnouncements_newAnns anns
    (mkScraperResult c.info_name c.info_website ex ts sid)
  have hex : (mkScraperResult c.info_name c.info_website ex ts sid).existing_urls = ex := rfl
  rw [hex] at hnew
  have h2 : anns.filter (fun a => !isDupRaw ex a) ≠ [] := by
    intro hh
    apply hne
    rw [hh]
    rfl
  obtain ⟨_, _, _, _, _, hfc, herr, _, _⟩ := processAnnouncements_const anns
    (mkScraperResult c.info_name c.info_website ex ts sid)
  have hannp := processAnnouncements_announcements anns
    (mkScraperResult c.info_name c.info_website ex ts sid)
  rw [hex] at hannp
  have hfc0 : (mkScraperResult c.info_name c.info_website ex ts sid).full_content = [] := rfl
  have herr0 : (mkScraperResult c.info_name c.info_website ex ts sid).errors = [] := rfl
  have hann0 : (mkScraperResult c.info_name c.info_website ex ts sid).announcements = [] := rfl
  have hweb : (mkScraperResult c.info_name c.info_website ex ts sid).website =
    c.info_website := rfl
  have hts : (mkScraperResult c.info_name c.info_website ex ts sid).scraped_at = ts := rfl
  rw [hfc0] at hfc
  rw [herr0] at herr
  rw [hann0, hweb, hts] at hannp
  simp only [runScraper, hl, hnew, h2, hne, hf, FullOutcome.call, ne_eq,
    not_false_eq_true, and_self, if_true, ite_not, if_false]
  constructor
  · exact hfc
  constructor
  · rw [herr]
    rfl
  · simpa using hannp

/-- C6 witness: a concrete run whose content phase raises after one
record keeps the admitted announcement, records the error, and holds no
content. -/
theorem C6_witness :
    (runScraper "fda_scraper" cRaises [] "2024-09-01" "2024-09-30"
        true "t1" "s1").result.full_content = []
    ∧ (runScraper "fda_scraper" cRaises [] "2024-09-01" "2024-09-30"
        true "t1" "s1").result.errors =
        [errorMessage "fda_scraper" "connection reset by peer"]
    ∧ (runScraper "fda_scraper" cRaises [] "2024-09-01" "2024-09-30"
        true "t1" "s1").result.announcements =
        ([rawA1].filter (fun a => !isDupRaw [] a)).map
          (standardizeAnnouncement cRaises.info_website "t1") :=
  C6_raise_discards_content "fda_scraper" cRaises [] "2024-09-01" "2024-09-30" "t1" "s1"
    [rawA1] [contentA1] "connection reset by peer" rfl rfl (by decide)

theorem runScraper_announcements_pairwise (scraper_key : String) (c : Collector)
    (ex : List String) (sd ed : String) (flag : Bool) (ts sid : String)
    (hc : listingNodupOk c sd ed) :
    ((runScraper scraper_key c ex sd ed flag ts sid).result.announcements).Pairwise urlOk := by
  rw [runScraper_result_announcements]
  cases h : c.scrape_announcements sd ed with
  | error e => simp
  | ok anns =>
    have hp := hc anns h
    have hfp := List.Pairwise.sublist
      (List.filter_sublist (p := fun a => !isDupRaw ex a) anns) hp
    rw [List.pairwise_map]
    refine hfp.imp ?_
    intro a b hab
    simpa [urlOk, standardizeAnnouncement] using hab

theorem runScraper_urls_not_in_index (scraper_key : String) (c : Collector)
    (ex : List String) (sd ed : String) (flag : Bool) (ts sid : String) {b : Announcement}
    (hb : b ∈ (runScraper scraper_key c ex sd ed flag ts sid).result.announcements)
    (hbu : b.url ≠ "") : b.url ∉ ex := by
  rw [runScraper_result_announcements] at hb
  cases h : c.scrape_announcements sd ed with
  | error e => rw [h] at hb; simp at hb
  | ok anns =>
    rw [h] at hb
    simp only [List.mem_map, List.mem_filter] at hb
    obtain ⟨a, ⟨ha, hacc⟩, rfl⟩ := hb
    simp only [Bool.not_eq_true'] at hacc
    simp only [isDupRaw, decide_eq_false_iff_not] at hacc
    simp only [standardizeAnnouncement] at hbu ⊢
    intro hmem
    exact hacc ⟨hbu, hmem⟩

theorem storeInv_runAndMerge (S : Store) (key : String) (c : Collector) (sd ed : String)
    (flag : Bool) (ts sid now : String) (hS : storeInv S) (hc : listingNodupOk c sd ed) :
    storeInv (runAndMerge S key c sd ed flag ts sid now) := by
  intro q hq
  have hrm : runAndMerge S key c sd ed flag ts sid now =
      updateMasterFile S
        [(key, (runScraper key c (getExistingUrls S (some key)) sd ed flag ts sid).result)]
        now := rfl
  rw [hrm, updateMasterFile_single_rbs] at hq
  cases hl : alistLookup S.results_by_scraper key with
  | none =>
    rw [hl] at hq
    rcases List.mem_append.mp hq with hq | hq
    · exact hS q hq
    · have hq2 : q = (key,
          (runScraper key c (getExistingUrls S (some key)) sd ed flag ts sid).result.toDict) := by
        simpa using hq
      rw [hq2]
      show entryInv _
      rw [entryInv, toDict_announcements]
      exact runScraper_announcements_pairwise key c _ sd ed flag ts sid hc
  | some e =>
    rw [hl] at hq
    rcases mem_alistSet hq with hq | hq
    · rw [hq]
      show entryInv _
      rw [entryInv, mergeEntry_announcements, List.pairwise_append]
      refine ⟨hS (key, e) (alistLookup_mem hl), ?_, ?_⟩
      · exact runScraper_announcements_pairwise key c _ sd ed flag ts sid hc
      · intro a ha b hb
        by_cases hbu : b.url = ""
        · exact Or.inr (Or.inl hbu)
        by_cases hau : a.url = ""
        · exact Or.inl hau
        refine Or.inr (Or.inr ?_)
        intro heq
        have hbi : b.url ∉ getExistingUrls S (some key) :=
          runScraper_urls_not_in_index key c _ sd ed flag ts sid hb hbu
        have hai : a.url ∈ getExistingUrls S (some key) :=
          entry_url_mem_getExistingUrls hl (mem_entryUrls_of_announcement ha hau)
        rw [heq] at hai
        exact hbi hai
    · exact hS q hq

/-- C5 counterexample: the deduplication check of add_announcement
consults only the snapshot of previously stored urls, never the urls
admitted earlier in the same run, so a single run whose listing yields
the same non-empty url twice stores two listing records with that url,
refuting the invariant as claimed. -/
theorem C5_counterexample :
    ¬ storeInv (runAndMerge (emptyStore "t0") "fda_scraper" cDupListing
        "2024-09-01" "2024-09-30" true "t1" "s1" "t2") := by
  decide

/-- C5 amended: in every store reachable by a sequence of runs and
merges from a store satisfying the invariant, no two stored listing
records of one collector share a non-empty url, provided no single run
of the sequence has a listing phase yielding the same non-empty url more
than once within that run. -/
theorem C5_invariant_nodup_runs (S : Store) (steps : List RunStep) (hS : storeInv S)
    (hsteps : ∀ st ∈ steps, listingNodupOk st.collector st.start_date st.end_date) :
    storeInv (execSteps S steps) := by
  induction steps generalizing S with
  | nil => exact hS
  | cons st rest ih =>
    exact ih _
      (storeInv_runAndMerge S st.scraper_key st.collector st.start_date st.end_date
        st.scrape_full_content st.scraped_at st.session_id st.now hS
        (hsteps st (List.mem_cons_self _ _)))
      (fun st' h' => hsteps st' (List.mem_cons_of_mem _ h'))

/-- C5 witness: one run of a collector listing two distinct urls from the
empty store keeps the invariant. -/
theorem C5_witness :
    storeInv (execSteps (emptyStore "t0")
      [{ scraper_key := "fda_scraper", collector := cTwo, start_date := "2024-09-01",
         end_date := "2024-09-30", scrape_full_content := true, scraped_at := "t1",
         session_id := "s1", now := "t2" }]) := by
  apply C5_invariant_nodup_runs
  · decide
  · intro st hst
    rw [List.mem_singleton] at hst
    subst hst
    intro anns h
    have h2 : [rawA1, rawA2] = anns := by
      simpa [cTwo] using h
    rw [← h2]
    decide

theorem runScraper_result_announcements_ok (scraper_key : String) (c : Collector)
    (ex : List String) (sd ed : String) (flag : Bool) (ts sid : String)
    (anns : List RawAnnouncement) (hl : c.scrape_announcements sd ed = .ok anns) :
    (runScraper scraper_key c ex sd ed flag ts sid).result.announcements =
      (anns.filter (fun a => !isDupRaw ex a)).map
        (standardizeAnnouncement c.info_website ts) := by
  rw [runScraper_result_announcements, hl]

theorem runScraper_result_skipped_ok (scraper_key : String) (c : Collector)
    (ex : List String) (sd ed : String) (flag : Bool) (ts sid : String)
    (anns : List RawAnnouncement) (hl : c.scrape_announcements sd ed = .ok anns) :
    (runScraper scraper_key c ex sd ed flag ts sid).result.skipped_duplicates =
      (anns.filter (fun a => isDupRaw ex a)).length := by
  rw [runScraper_result_skipped, hl]

theorem filter_url_map_std (w ts : String) (l : List RawAnnouncement) :
    ((l.map (standardizeAnnouncement w ts)).filter (fun a => decide (a.url ≠ ""))).length
      = (l.filter (fun a => decide (a.url.getD "" ≠ ""))).length := by
  induction l with
  | nil => rfl
  | cons a t ih =>
    simp only [ne_eq, decide_not] at ih ⊢
    by_cases h : a.url.getD "" = "" <;>
      simp [List.filter_cons, standardizeAnnouncement, h, ih]

theorem split_dup_count (ex : List String) (l : List RawAnnouncement) :
    (l.filter (fun a => decide (a.url.getD "" ≠ "") && !isDupRaw ex a)).length
      + (l.filter (fun a => isDupRaw ex a)).length
      = (l.filter (fun a => decide (a.url.getD "" ≠ ""))).length := by
  induction l with
  | nil => rfl
  | cons a t ih =>
    simp only [ne_eq, decide_not] at ih ⊢
    simp only [List.filter_cons]
    by_cases hd : isDupRaw ex a = true
    · have hne : a.url.getD "" ≠ "" := by
        have hd2 := hd
        simp only [isDupRaw, decide_eq_true_eq] at hd2
        exact hd2.1
      simp [hd, hne]
      omega
    · have hd2 : isDupRaw ex a = false := by simpa using hd
      by_cases hne : a.url.getD "" = ""
      · simp [hd2, hne]
        omega
      · simp [hd2, hne]
        omega

/-- C2 counterexample: a collector whose listing holds a record without
a url is re-admitted on every run, so a second identical run against the
same store admits one announcement, not zero, refuting the claimed
conjunction at a concrete store and collector. -/
theorem C2_counterexample :
    ¬ ((runScraper "fda_scraper" cMix
          (getExistingUrls (runAndMerge (emptyStore "t0") "fda_scraper" cMix "2024-09-01"
            "2024-09-30" true "t1" "s1" "t2") (some "fda_scraper"))
          "2024-09-01" "2024-09-30" true "t3" "s2").result.announcements.length = 0
        ∧ (runScraper "fda_scraper" cMix
            (getExistingUrls (runAndMerge (emptyStore "t0") "fda_scraper" cMix "2024-09-01"
              "2024-09-30" true "t1" "s1" "t2") (some "fda_scraper"))
            "2024-09-01" "2024-09-30" true "t3" "s2").result.skipped_duplicates =
          ((runScraper "fda_scraper" cMix (getExistingUrls (emptyStore "t0")
              (some "fda_scraper")) "2024-09-01" "2024-09-30" true "t1"
              "s1").result.announcements.filter
            (fun a => decide (a.url ≠ ""))).length) := by
  decide

/-- C2 amended: re-running the same deterministic Collector with the same
date range against the same store admits on the second run exactly the
listing records with empty url (in particular zero records with a
non-empty url), and the second run counts as skipped_duplicates every
listing record with a non-empty url — which equals the number of
announcements admitted on the first run with non-empty urls plus the
skipped_duplicates of the first run. -/
theorem C2_rerun (S : Store) (key : String) (c : Collector) (sd ed : String) (flag : Bool)
    (ts1 sid1 now1 ts2 sid2 : String) (anns : List RawAnnouncement)
    (hl : c.scrape_announcements sd ed = .ok anns) :
    (runScraper key c
        (getExistingUrls (runAndMerge S key c sd ed flag ts1 sid1 now1) (some key))
        sd ed flag ts2 sid2).result.announcements.length =
      (anns.filter (fun a => decide (a.url.getD "" = ""))).length
    ∧ (runScraper key c
        (getExistingUrls (runAndMerge S key c sd ed flag ts1 sid1 now1) (some key))
        sd ed flag ts2 sid2).result.skipped_duplicates =
      (anns.filter (fun a => decide (a.url.getD "" ≠ ""))).length
    ∧ (runScraper key c
        (getExistingUrls (runAndMerge S key c sd ed flag ts1 sid1 now1) (some key))
        sd ed flag ts2 sid2).result.skipped_duplicates =
      ((runScraper key c (getExistingUrls S (some key)) sd ed flag ts1
          sid1).result.announcements.filter (fun a => decide (a.url ≠ ""))).length
      + (runScraper key c (getExistingUrls S (some key)) sd ed flag ts1
          sid1).result.skipped_duplicates := by
  have hF : ∀ a ∈ anns, a.url.getD "" ≠ "" →
      a.url.getD "" ∈ getExistingUrls
        (runAndMerge S key c sd ed flag ts1 sid1 now1) (some key) := by
    intro a ha hne
    have hrm : runAndMerge S key c sd ed flag ts1 sid1 now1 =
        updateMasterFile S
          [(key, (runScraper key c (getExistingUrls S (some key)) sd ed flag ts1
            sid1).result)] now1 := rfl
    rw [hrm]
    by_cases hmem : a.url.getD "" ∈ getExistingUrls S (some key)
    · exact getExistingUrls_mono_merge S key _ now1 key hmem
    · have hstd : standardizeAnnouncement c.info_website ts1 a ∈
          (runScraper key c (getExistingUrls S (some key)) sd ed flag ts1
            sid1).result.announcements := by
        rw [runScraper_result_announcements, hl]
        exact List.mem_map_of_mem _ (List.mem_filter.mpr ⟨ha, by
          simp [isDupRaw, hne, hmem]⟩)
      have hh := run_announcement_url_mem_merge S key _ now1 hstd
        (by simpa [standardizeAnnouncement] using hne)
      simpa [standardizeAnnouncement] using hh
  have hacc2 : ∀ a ∈ anns,
      (!isDupRaw (getExistingUrls (runAndMerge S key c sd ed flag ts1 sid1 now1)
        (some key)) a) = decide (a.url.getD "" = "") := by
    intro a ha
    by_cases hne : a.url.getD "" = ""
    · simp [isDupRaw, hne]
    · simp [isDupRaw, hne, hF a ha hne]
  have hdup2 : ∀ a ∈ anns,
      isDupRaw (getExistingUrls (runAndMerge S key c sd ed flag ts1 sid1 now1)
        (some key)) a = decide (a.url.getD "" ≠ "") := by
    intro a ha
    by_cases hne : a.url.getD "" = ""
    · simp [isDupRaw, hne]
    · simp [isDupRaw, hne, hF a ha hne]
  have hann2 := runScraper_result_announcements_ok key c
    (getExistingUrls (runAndMerge S key c sd ed flag ts1 sid1 now1) (some key))
    sd ed flag ts2 sid2 anns hl
  have hskip2 := runScraper_result_skipped_ok key c
    (getExistingUrls (runAndMerge S key c sd ed flag ts1 sid1 now1) (some key))
    sd ed flag ts2 sid2 anns hl
  have hann1 := runScraper_result_announcements_ok key c (getExistingUrls S (some key))
    sd ed flag ts1 sid1 anns hl
  have hskip1 := runScraper_result_skipped_ok key c (getExistingUrls S (some key))
    sd ed flag ts1 sid1 anns hl
  refine ⟨?_, ?_, ?_⟩
  · rw [hann2, List.length_map, List.filter_congr hacc2]
  · rw [hskip2, List.filter_congr hdup2]
  · rw [hskip2, List.filter_congr hdup2, hann1, hskip1, filter_url_map_std,
      List.filter_filter]
    exact (split_dup_count (getExistingUrls S (some key)) anns).symm

/-- C2 witness: the amended statement evaluated for a collector listing
one url-bearing record and one record without a url, from the empty
store: the second run admits one announcement and skips one duplicate,
which equals one first-run non-empty-url admission plus zero first-run
skips. -/
theorem C2_witness :
    (runScraper "fda_scraper" cMix
        (getExistingUrls (runAndMerge (emptyStore "t0") "fda_scraper" cMix "2024-09-01"
          "2024-09-30" true "t1" "s1" "t2") (some "fda_scraper"))
        "2024-09-01" "2024-09-30" true "t3" "s2").result.announcements.length = 1
    ∧ (runScraper "fda_scraper" cMix
        (getExistingUrls (runAndMerge (emptyStore "t0") "fda_scraper" cMix "2024-09-01"
          "2024-09-30" true "t1" "s1" "t2") (some "fda_scraper"))
        "2024-09-01" "2024-09-30" true "t3" "s2").result.skipped_duplicates = 1 := by
  obtain ⟨h1, h2, h3⟩ := C2_rerun (emptyStore "t0") "fda_scraper" cMix "2024-09-01"
    "2024-09-30" true "t1" "s1" "t2" "t3" "s2" [rawA1, rawNoUrl] rfl
  constructor
  · rw [h1]
    decide
  · rw [h2]
    decide

end WebScraper
